import Mathlib

/-!
Verification development for the psub edge function (subscription converter).

The JavaScript source is shallowly embedded: strings are modelled as `List Char`
(`Str`), JavaScript regular-expression tests and string methods used by the
source are modelled as executable Lean functions, exceptions thrown by `atob`
are modelled with `Option`, the in-process `memoryCache` `Map` is an
association list, `fetch` is an environment `Str → Option FetchResult`
(`none` models a network error / timeout / abort exception), and
`Math.random`-driven key generation is a supply `Nat → Nat` indexed by the
number of random draws made so far.
-/

namespace Psub

/-- Strings of the JavaScript program, modelled as lists of characters. -/
abbrev Str := List Char

/-- Coerce a Lean string literal into the `Str` model. -/
def str (s : String) : Str := s.data

/-- `leadsWith pat s` is true when `pat` occurs at the start of `s`
(models JavaScript `s.startsWith(pat)` and an anchored regex match). -/
def leadsWith : Str → Str → Bool
  | [], _ => true
  | _ :: _, [] => false
  | p :: ps, c :: cs => (p == c) && leadsWith ps cs

/-- `hasSub pat s` is true when `pat` occurs somewhere in `s`
(models JavaScript `s.includes(pat)`). -/
def hasSub (pat : Str) : Str → Bool
  | [] => pat.isEmpty
  | c :: cs => leadsWith pat (c :: cs) || hasSub pat cs

/-- The JavaScript whitespace class: the code points matched by `\s` and
trimmed by `String.prototype.trim` (WhiteSpace ∪ LineTerminator). -/
def wsCodes : List Nat :=
  [0x9, 0xA, 0xB, 0xC, 0xD, 0x20, 0xA0, 0x1680,
   0x2000, 0x2001, 0x2002, 0x2003, 0x2004, 0x2005, 0x2006, 0x2007,
   0x2008, 0x2009, 0x200A, 0x2028, 0x2029, 0x202F, 0x205F, 0x3000, 0xFEFF]

/-- Character test for the JavaScript `\s` class. -/
def jsWs (c : Char) : Bool := wsCodes.contains c.toNat

/-- Models JavaScript `s.trim()`: strip `\s`-class characters from both ends. -/
def jsTrim (s : Str) : Str :=
  ((s.dropWhile jsWs).reverse.dropWhile jsWs).reverse

/-- Models JavaScript `s.replace(/\s/g, '')`: delete every whitespace char. -/
def removeWs (s : Str) : Str := s.filter (fun c => !jsWs c)

/-- WHATWG infra ASCII whitespace, stripped by `atob` before decoding. -/
def asciiWs (c : Char) : Bool :=
  c.toNat = 0x9 || c.toNat = 0xA || c.toNat = 0xC || c.toNat = 0xD || c.toNat = 0x20

/-- Value of a base64 alphabet character (`A`-`Z`, `a`-`z`, `0`-`9`, `+`, `/`). -/
def b64Val (c : Char) : Option Nat :=
  if 'A' ≤ c ∧ c ≤ 'Z' then some (c.toNat - 65)
  else if 'a' ≤ c ∧ c ≤ 'z' then some (c.toNat - 71)
  else if '0' ≤ c ∧ c ≤ '9' then some (c.toNat + 4)
  else if c = '+' then some 62
  else if c = '/' then some 63
  else none

/-- Remove one or two trailing `=` padding characters (forgiving-base64 step). -/
def dropPad2 (d : Str) : Str :=
  match d.reverse with
  | '=' :: '=' :: r => r.reverse
  | '=' :: r => r.reverse
  | _ => d

/-- Turn a list of 6-bit values into decoded bytes (as characters);
a trailing group of 2 or 3 values contributes 1 or 2 bytes, with the
leftover low bits discarded, per forgiving-base64. -/
def b64DecodeVals : List Nat → List Char
  | a :: b :: c :: d :: rest =>
      Char.ofNat (a * 4 + b / 16) :: Char.ofNat ((b % 16) * 16 + c / 4) ::
        Char.ofNat ((c % 4) * 64 + d) :: b64DecodeVals rest
  | [a, b] => [Char.ofNat (a * 4 + b / 16)]
  | [a, b, c] => [Char.ofNat (a * 4 + b / 16), Char.ofNat ((b % 16) * 16 + c / 4)]
  | _ => []

/-- Models JavaScript `atob` (forgiving-base64 decode): strip ASCII
whitespace, strip up to two trailing `=` when the length is a multiple of 4,
fail when the remaining length is ≡ 1 (mod 4) or a non-alphabet character
remains, otherwise decode.  `none` models the thrown `InvalidCharacterError`. -/
def atobJs (s : Str) : Option Str :=
  let d0 := s.filter (fun c => !asciiWs c)
  let d := if d0.length % 4 = 0 then dropPad2 d0 else d0
  if d.length % 4 = 1 then none
  else if d.all (fun c => (b64Val c).isSome) then
    some (b64DecodeVals (d.map (fun c => (b64Val c).getD 0)))
  else none

/-- The base64 output alphabet in index order. -/
def b64Chars : Str := str "ABCDEFGHIJKLMNOPQRSTUVWXYZabcdefghijklmnopqrstuvwxyz0123456789+/"

/-- Models JavaScript `btoa`: base64-encode a binary string. -/
def btoaJs : Str → Str
  | [] => []
  | [a] =>
      [b64Chars.getD (a.toNat / 4) 'A', b64Chars.getD ((a.toNat % 4) * 16) 'A', '=', '=']
  | [a, b] =>
      [b64Chars.getD (a.toNat / 4) 'A', b64Chars.getD ((a.toNat % 4) * 16 + b.toNat / 16) 'A',
       b64Chars.getD ((b.toNat % 16) * 4) 'A', '=']
  | a :: b :: c :: rest =>
      b64Chars.getD (a.toNat / 4) 'A' :: b64Chars.getD ((a.toNat % 4) * 16 + b.toNat / 16) 'A' ::
        b64Chars.getD ((b.toNat % 16) * 4 + c.toNat / 64) 'A' :: b64Chars.getD (c.toNat % 64) 'A' ::
        btoaJs rest

/-- The four format tags produced by the classifier. -/
inductive Fmt where
  | base64
  | yaml
  | direct
  | unknown
  deriving DecidableEq, Repr

/-- Result of the classifier: a format tag and the payload text. -/
structure Parsed where
  format : Fmt
  data : Str
  deriving DecidableEq, Repr

/-- Character class test for the regex `^[A-Za-z0-9+/=\s]+$` used by
`parseData` (nonempty, and every character is base64-alphabet, `=`, or `\s`). -/
def base64PatternTest (t : Str) : Bool :=
  !t.isEmpty && t.all (fun c => (b64Val c).isSome || c == '=' || jsWs c)

/-- The guard of the base64 branch of `parseData`:
pattern matches and trimmed length exceeds 20. -/
def b64Gate (t : Str) : Bool :=
  base64PatternTest t && decide (20 < t.length)

/-- Scheme alternatives of the direct node-link regex
`^(ssr?|vmess1?|trojan|vless|hysteria|hysteria2|tg)://`. -/
def nodeSchemes : List Str :=
  [str "ss", str "ssr", str "vmess", str "vmess1", str "trojan", str "vless",
   str "hysteria", str "hysteria2", str "tg"]

/-- Test for the direct node-link regex. -/
def directLinkTest (t : Str) : Bool :=
  nodeSchemes.any (fun p => leadsWith (p ++ str "://") t)

/-- The checks `parseData` runs after (or instead of) the base64 branch:
YAML marker, then direct node-link prefix, then unknown — always on the
trimmed text. -/
def restChecks (trimmed : Str) : Parsed :=
  if hasSub (str "proxies:") trimmed || hasSub (str "Proxy:") trimmed then
    ⟨.yaml, trimmed⟩
  else if directLinkTest trimmed then ⟨.direct, trimmed⟩
  else ⟨.unknown, trimmed⟩

/-- The format classifier `parseData` of the source: trim, try the base64
branch (pattern, length > 20, `atob` of the whitespace-stripped text,
decoded text contains `://`), falling through to `restChecks` when the
branch does not return. -/
def parseData (data : Str) : Parsed :=
  let trimmed := jsTrim data
  if b64Gate trimmed then
    match atobJs (removeWs trimmed) with
    | some decoded =>
        if hasSub (str "://") decoded then ⟨.base64, decoded⟩
        else restChecks trimmed
    | none => restChecks trimmed
  else restChecks trimmed

/-- The in-process `memoryCache` `Map`: an association list where `set`
prepends, so the first binding found is the most recent write. -/
abbrev Cache := List (Str × Str)

/-- `memoryCache.set(k, v)`. -/
def cacheSet (c : Cache) (k v : Str) : Cache := (k, v) :: c

/-- `memoryCache.get(k)` (`none` models `undefined`). -/
def cacheGet : Cache → Str → Option Str
  | [], _ => none
  | (k1, v1) :: rest, k => if k = k1 then some v1 else cacheGet rest k

/-- Outcome of a successful `fetch`: HTTP status, body text, the serialized
form of `Object.fromEntries(response.headers)`, and the `Content-Type`
response header. -/
structure FetchResult where
  status : Nat
  body : Str
  headersJson : Str
  ct : Option Str
  deriving DecidableEq, Repr

/-- `response.ok`: status in the 2xx range. -/
def rok (r : FetchResult) : Prop := 200 ≤ r.status ∧ r.status < 300

instance (r : FetchResult) : Decidable (rok r) := by unfold rok; infer_instance

/-- The fetch environment: `none` models a network error, timeout abort, or
any other exception thrown by `fetch`/`response.text()`. -/
abbrev FetchEnv := Str → Option FetchResult

/-- The alphabet of `generateRandomStr`. -/
def keyCharsList : Str := str "abcdefghijklmnopqrstuvwxyz0123456789"

/-- `generateRandomStr(len)` with the random draws taken from the supply
`rand` starting at draw index `start`; each draw models
`Math.floor(Math.random() * 36)` (reduced mod 36 to stay in range). -/
def generateRandomStr (rand : Nat → Nat) (start len : Nat) : Str :=
  (List.range len).map (fun i => keyCharsList.getD (rand (start + i) % 36) 'a')

/-- State threaded through the fan-out loop of `processSubscription`:
the cache, the number of random draws made so far, and the `replacedURIs`
accumulated in order. -/
structure RState where
  cache : Cache
  ctr : Nat
  uris : List Str
  deriving Repr

/-- The `_headers` key suffix used for header entries. -/
def hdrSfx : Str := str "_headers"

/-- `JSON.stringify({'Content-Type':'text/plain'})`. -/
def ctPlainJson : Str := str "\x7b\"Content-Type\":\"text/plain\"\x7d"

/-- `JSON.stringify({'Content-Type':'text/plain;charset=UTF-8'})`. -/
def ctUtf8Json : Str := str "\x7b\"Content-Type\":\"text/plain;charset=UTF-8\"\x7d"

/-- A rehosted URI: `host + '/subscription/' + key`. -/
def mkUri (host k : Str) : Str := host ++ str "/subscription/" ++ k

/-- Split a string at every occurrence of the character `ch`
(models JavaScript `s.split(ch)` for a one-character separator). -/
def splitOnChar (ch : Char) : Str → List Str
  | [] => [[]]
  | c :: cs =>
    if c = ch then [] :: splitOnChar ch cs
    else
      match splitOnChar ch cs with
      | [] => [[c]]
      | p :: ps => (c :: p) :: ps

/-- Remove a single trailing carriage return. -/
def dropTrailCr (p : Str) : Str :=
  match p.reverse with
  | '\r' :: r => r.reverse
  | _ => p

/-- Strip one trailing `\r` from every piece that was followed by `\n`
(that is, from every piece but the last). -/
def stripCrButLast : List Str → List Str
  | [] => []
  | [p] => [p]
  | p :: ps => dropTrailCr p :: stripCrButLast ps

/-- Models `s.split(/\r?\n/)`: split at every `\n`, consuming an immediately
preceding `\r` with it. -/
def splitCrLf (s : Str) : List Str :=
  stripCrButLast (splitOnChar '\n' s)

/-- The non-blank lines of a decoded base64 payload:
`parsed.data.split(/\r?\n/).filter(link => link.trim() !== '')`. -/
def nonBlankLines (s : Str) : List Str :=
  (splitCrLf s).filter (fun l => ¬(jsTrim l = []))

/-- The inner `for` loop of the base64 branch: for each link generate a fresh
node key, store the link and a fixed `text/plain` header entry, and append
the rehosted URI. -/
def explodeLinks (rand : Nat → Nat) (host : Str) : List Str → RState → RState
  | [], st => st
  | link :: rest, st =>
    let nodeKey := generateRandomStr rand st.ctr 16
    explodeLinks rand host rest
      ⟨cacheSet (cacheSet st.cache nodeKey link) (nodeKey ++ hdrSfx) ctPlainJson,
       st.ctr + 16, st.uris ++ [mkUri host nodeKey]⟩

/-- One iteration of the fan-out loop of `processSubscription`
(the permissive variant with the base64 self-decode fallback):
generate a key, then dispatch on URL / direct node link / fallback. -/
def processUrlPart (rand : Nat → Nat) (env : FetchEnv) (host : Str)
    (st : RState) (urlPart : Str) : RState :=
  let key := generateRandomStr rand st.ctr 16
  let st1 : RState := ⟨st.cache, st.ctr + 16, st.uris⟩
  if leadsWith (str "https://") urlPart || leadsWith (str "http://") urlPart then
    match env urlPart with
    | none => st1
    | some resp =>
      if rok resp then
        if resp.body = [] ∨ jsTrim resp.body = [] then st1
        else
          let parsed := parseData resp.body
          let st2 : RState :=
            ⟨cacheSet st1.cache (key ++ hdrSfx) resp.headersJson, st1.ctr, st1.uris⟩
          if parsed.format = .base64 then
            explodeLinks rand host (nonBlankLines parsed.data) st2
          else if parsed.format = .yaml then
            ⟨cacheSet (cacheSet st2.cache key resp.body) (key ++ hdrSfx) ctUtf8Json,
             st2.ctr, st2.uris ++ [mkUri host key]⟩
          else
            ⟨cacheSet (cacheSet st2.cache key resp.body) (key ++ hdrSfx) ctUtf8Json,
             st2.ctr, st2.uris ++ [mkUri host key]⟩
      else st1
  else if directLinkTest urlPart then
    ⟨cacheSet (cacheSet st.cache key urlPart) (key ++ hdrSfx) ctPlainJson,
     st.ctr + 16, st.uris ++ [mkUri host key]⟩
  else
    match atobJs (removeWs urlPart) with
    | some decoded =>
      let parsed := parseData decoded
      if parsed.format = .base64 then
        explodeLinks rand host (nonBlankLines parsed.data) st1
      else st1
    | none =>
      ⟨cacheSet (cacheSet st.cache key urlPart) (key ++ hdrSfx) ctPlainJson,
       st.ctr + 16, st.uris ++ [mkUri host key]⟩

/-- The whole fan-out loop over the `|`-separated segments. -/
def runFanout (rand : Nat → Nat) (env : FetchEnv) (host : Str)
    (segs : List Str) (st0 : RState) : RState :=
  segs.foldl (processUrlPart rand env host) st0

/-- The parsed `new URL(request.url)` together with the request parts the
handlers read: `origin` is `getHost(request)` (protocol + `//` + host),
`host` is the bare `url.host`, and `params` is `url.searchParams.get`. -/
structure ReqUrl where
  origin : Str
  host : Str
  pathname : Str
  search : Str
  params : Str → Option Str

/-- An HTTP response of the model: status, body, and the serialized headers
the handler attaches (empty when the source attaches none beyond defaults). -/
structure SubResp where
  status : Nat
  body : Str
  hdrs : Str
  deriving DecidableEq, Repr

/-- Models `Array.prototype.join(sep)`. -/
def joinWith (sep : Str) : List Str → Str
  | [] => []
  | [x] => x
  | x :: xs => x ++ sep ++ joinWith sep xs

/-- Splitting of the caller's `url` parameter:
`targetUrl.split('|').filter(part => part.trim() !== '')`. -/
def splitSegs (targetUrl : Str) : List Str :=
  (splitOnChar '|' targetUrl).filter (fun p => ¬(jsTrim p = []))

/-- The tail of `processSubscription` shared by both fan-out variants:
split and filter the segments, fail with `There are no valid links` when
none remain, run the loop, fail with the all-invalid message when no URI was
produced, otherwise answer 200 with the base64 of the CRLF-joined URI list. -/
def fanoutResponse (step : RState → Str → RState) (targetUrl : Str)
    (cache0 : Cache) : SubResp × Cache :=
  let urlParts := splitSegs targetUrl
  if urlParts = [] then (⟨400, str "There are no valid links", []⟩, cache0)
  else
    let fin := urlParts.foldl step ⟨cache0, 0, []⟩
    if fin.uris = [] then
      (⟨400, str "Error: All subscription links are invalid or returned empty content.", []⟩,
       fin.cache)
    else (⟨200, btoaJs (joinWith (str "\r\n") fin.uris), []⟩, fin.cache)

/-- `processSubscription` of the permissive variant (`part_001`): reads only
the `url` parameter — there is no `target` branch — and runs the fan-out. -/
def processSubscriptionV1 (rand : Nat → Nat) (env : FetchEnv) (req : ReqUrl)
    (cache0 : Cache) : SubResp × Cache :=
  match req.params (str "url") with
  | none => (⟨400, str "Missing url parameter", []⟩, cache0)
  | some targetUrl =>
    if targetUrl = [] then (⟨400, str "Missing url parameter", []⟩, cache0)
    else fanoutResponse (processUrlPart rand env req.origin) targetUrl cache0

/-- Models `s.replace(pat, repl)` with a plain-string pattern: replace the
first occurrence only. -/
def replaceFirst (pat repl : Str) : Str → Str
  | [] => []
  | c :: cs =>
    if leadsWith pat (c :: cs) then repl ++ List.drop (pat.length - 1) cs
    else c :: replaceFirst pat repl cs

/-- The `GET /subscription/...` route of the handler, given the final cache
and the request pathname (which the dispatcher has checked to start with
`/subscription/`): extract the key, validate it, look up content and headers,
and respond.  An empty stored string is falsy in `if (!content)`. -/
def handleSubscriptionGet (cache : Cache) (pathname : Str) : SubResp :=
  let key := replaceFirst (str "/subscription/") [] pathname
  if key = [] ∨ hasSub (str "/") key = true ∨ hasSub (str "..") key = true then
    ⟨400, str "Invalid key", []⟩
  else
    match cacheGet cache key with
    | none => ⟨404, str "Not Found", []⟩
    | some content =>
      if content = [] then ⟨404, str "Not Found", []⟩
      else
        let hdrs :=
          match cacheGet cache (key ++ hdrSfx) with
          | some h => if h = [] then ctUtf8Json else h
          | none => ctUtf8Json
        ⟨200, content, hdrs⟩

/-- Worker for `replaceAll`: while `skip` is positive, the current character
belongs to an already-matched occurrence and is dropped. -/
def replaceAllAux (pat repl : Str) : Nat → Str → Str
  | _, [] => []
  | skip + 1, _ :: cs => replaceAllAux pat repl skip cs
  | 0, c :: cs =>
    if leadsWith pat (c :: cs) then
      repl ++ replaceAllAux pat repl (pat.length - 1) cs
    else c :: replaceAllAux pat repl 0 cs

/-- Models `s.replace(/pat/g, repl)` with a plain-string pattern: replace
every (non-overlapping, leftmost-first) occurrence. -/
def replaceAll (pat repl : Str) (s : Str) : Str := replaceAllAux pat repl 0 s

theorem replaceAllAux_skip (pat repl : Str) : ∀ (skip : Nat) (s : Str),
    replaceAllAux pat repl skip s = replaceAllAux pat repl 0 (List.drop skip s) := by
  intro skip s
  induction s generalizing skip with
  | nil => cases skip <;> rfl
  | cons c cs ih =>
    cases skip with
    | zero => rfl
    | succ m =>
      show replaceAllAux pat repl m cs = _
      rw [ih m]
      rfl

/-- The four domain-rewriting passes of `forwardToBackend`, in source order:
`https://bulianglin2023.dev` → origin, bare `bulianglin2023.dev` → host,
`https://api.v1.mk` → origin, bare `api.v1.mk` → host. -/
def rewriteDomains (content origin bareHost : Str) : Str :=
  let c1 := replaceAll (str "https://bulianglin2023.dev") origin content
  let c2 := replaceAll (str "bulianglin2023.dev") bareHost c1
  let c3 := replaceAll (str "https://api.v1.mk") origin c2
  replaceAll (str "api.v1.mk") bareHost c3

/-- `forwardToBackend` of `part_000`: fetch `backend + pathname + search`
(the original path and the whole query string verbatim), surface a non-2xx
backend status, otherwise rewrite the placeholder domains in the body and
answer 200 with the backend's `Content-Type` (defaulting to `text/plain`). -/
def forwardToBackend (bf : FetchEnv) (backend : Str) (req : ReqUrl) : SubResp :=
  match bf (backend ++ req.pathname ++ req.search) with
  | none => ⟨500, str "Error forwarding to backend", []⟩
  | some r =>
    if rok r then
      ⟨200, rewriteDomains r.body req.origin req.host,
       match r.ct with
       | some c => c
       | none => str "text/plain"⟩
    else ⟨r.status, str "Backend error: " ++ Nat.toDigits 10 r.status, []⟩

/-- One iteration of the fan-out loop of the `part_000` variant: identical to
`processUrlPart` except that a segment that is neither a URL nor a direct
node link is skipped (the loop body has no `else` branch). -/
def processUrlPartV0 (rand : Nat → Nat) (env : FetchEnv) (host : Str)
    (st : RState) (urlPart : Str) : RState :=
  let key := generateRandomStr rand st.ctr 16
  let st1 : RState := ⟨st.cache, st.ctr + 16, st.uris⟩
  if leadsWith (str "https://") urlPart || leadsWith (str "http://") urlPart then
    match env urlPart with
    | none => st1
    | some resp =>
      if rok resp then
        if resp.body = [] ∨ jsTrim resp.body = [] then st1
        else
          let parsed := parseData resp.body
          let st2 : RState :=
            ⟨cacheSet st1.cache (key ++ hdrSfx) resp.headersJson, st1.ctr, st1.uris⟩
          if parsed.format = .base64 then
            explodeLinks rand host (nonBlankLines parsed.data) st2
          else
            ⟨cacheSet (cacheSet st2.cache key resp.body) (key ++ hdrSfx) ctUtf8Json,
             st2.ctr, st2.uris ++ [mkUri host key]⟩
      else st1
  else if directLinkTest urlPart then
    ⟨cacheSet (cacheSet st.cache key urlPart) (key ++ hdrSfx) ctPlainJson,
     st.ctr + 16, st.uris ++ [mkUri host key]⟩
  else st1

/-- `processSubscription` of the `part_000` variant: on a present, non-empty
(truthy) `target` parameter it forwards to the backend and performs no
fan-out work; otherwise it runs its fan-out loop. -/
def processSubscriptionV0 (rand : Nat → Nat) (env : FetchEnv) (bf : FetchEnv)
    (backend : Str) (req : ReqUrl) (cache0 : Cache) : SubResp × Cache :=
  match req.params (str "url") with
  | none => (⟨400, str "Missing url parameter", []⟩, cache0)
  | some targetUrl =>
    if targetUrl = [] then (⟨400, str "Missing url parameter", []⟩, cache0)
    else
      match req.params (str "target") with
      | some tg =>
        if tg = [] then fanoutResponse (processUrlPartV0 rand env req.origin) targetUrl cache0
        else (forwardToBackend bf backend req, cache0)
      | none => fanoutResponse (processUrlPartV0 rand env req.origin) targetUrl cache0

/-! ### Helper lemmas about the string model -/

theorem leadsWith_append_self (p r : Str) : leadsWith p (p ++ r) = true := by
  induction p with
  | nil => rfl
  | cons a as ih => simp [leadsWith, ih]

theorem leadsWith_mono (p x z : Str) (h : leadsWith p x = true) :
    leadsWith p (x ++ z) = true := by
  induction p generalizing x with
  | nil => rfl
  | cons a as ih =>
    cases x with
    | nil => simp [leadsWith] at h
    | cons c cs =>
      simp only [leadsWith, Bool.and_eq_true] at h
      simp only [List.cons_append, leadsWith, Bool.and_eq_true]
      exact ⟨h.1, ih cs h.2⟩

theorem leadsWith_of_le (p x z : Str) (hle : p.length ≤ x.length) :
    leadsWith p (x ++ z) = leadsWith p x := by
  induction p generalizing x with
  | nil => rfl
  | cons a as ih =>
    cases x with
    | nil => simp at hle
    | cons c cs =>
      simp only [List.length_cons] at hle
      simp only [List.cons_append, leadsWith, List.append_eq]
      rw [ih cs (Nat.le_of_succ_le_succ hle)]

theorem leadsWith_long_mem (p : Str) : ∀ (x : Str) (c : Char) (y : Str),
    x.length < p.length → leadsWith p (x ++ c :: y) = true → c ∈ p := by
  induction p with
  | nil => intro x c y hlen _; simp at hlen
  | cons a as ih =>
    intro x c y hlen h
    cases x with
    | nil =>
      simp only [List.nil_append, leadsWith, Bool.and_eq_true, beq_iff_eq] at h
      exact h.1 ▸ List.mem_cons_self a as
    | cons b x' =>
      simp only [List.cons_append, leadsWith, Bool.and_eq_true] at h
      simp only [List.length_cons] at hlen
      exact List.mem_cons_of_mem a (ih x' c y (Nat.lt_of_succ_lt_succ hlen) h.2)

theorem replaceFirst_cancel (p r rest : Str) (hp : p ≠ []) :
    replaceFirst p r (p ++ rest) = r ++ rest := by
  cases p with
  | nil => exact absurd rfl hp
  | cons a as =>
    have h : leadsWith (a :: as) ((a :: as) ++ rest) = true := leadsWith_append_self _ _
    simp only [List.cons_append, List.append_eq] at h ⊢
    simp only [replaceFirst]
    rw [if_pos h]
    have hd : List.drop ((a :: as).length - 1) (as ++ rest) = rest := by
      simp only [List.length_cons, Nat.add_sub_cancel]
      exact List.drop_left as rest
    simp only [List.append_eq] at hd
    rw [hd]

theorem hasSub_head_mem (a : Char) (t : Str) : ∀ s : Str, hasSub (a :: t) s = true → a ∈ s := by
  intro s
  induction s with
  | nil => intro h; simp [hasSub, List.isEmpty] at h
  | cons c cs ih =>
    intro h
    simp only [hasSub, Bool.or_eq_true] at h
    rcases h with h | h
    · simp only [leadsWith, Bool.and_eq_true, beq_iff_eq] at h
      exact h.1 ▸ List.mem_cons_self c cs
    · exact List.mem_cons_of_mem c (ih h)

theorem getD_mem_or (l : List Char) : ∀ (n : Nat) (d : Char), l.getD n d ∈ l ∨ l.getD n d = d := by
  induction l with
  | nil => intro n d; right; simp [List.getD]
  | cons a as ih =>
    intro n d
    cases n with
    | zero => left; simp [List.getD]
    | succ m =>
      have : (a :: as).getD (m + 1) d = as.getD m d := by simp [List.getD]
      rw [this]
      rcases ih m d with h | h
      · exact Or.inl (List.mem_cons_of_mem a h)
      · exact Or.inr h

theorem genStr_length (rand : Nat → Nat) (start len : Nat) :
    (generateRandomStr rand start len).length = len := by
  simp [generateRandomStr]

theorem genStr_mem (rand : Nat → Nat) (start len : Nat) :
    ∀ ch ∈ generateRandomStr rand start len, ch ∈ keyCharsList := by
  intro ch h
  simp only [generateRandomStr, List.mem_map] at h
  obtain ⟨i, _, rfl⟩ := h
  rcases getD_mem_or keyCharsList (rand (start + i) % 36) 'a' with h | h
  · exact h
  · rw [h]; decide

theorem cacheGet_set (c : Cache) (k k' v : Str) :
    cacheGet (cacheSet c k' v) k = if k = k' then some v else cacheGet c k := rfl

theorem ne_hdrKey (k : Str) : k ≠ k ++ hdrSfx := by
  intro h
  have := congrArg List.length h
  simp [hdrSfx, str] at this

theorem replaceAll_nil (p r : Str) : replaceAll p r [] = [] := rfl

theorem replaceAll_cons_pos (p r : Str) (c : Char) (cs : Str)
    (h : leadsWith p (c :: cs) = true) :
    replaceAll p r (c :: cs) = r ++ replaceAll p r (List.drop (p.length - 1) cs) := by
  show replaceAllAux p r 0 (c :: cs) = _
  rw [show replaceAllAux p r 0 (c :: cs) =
      (if leadsWith p (c :: cs) then r ++ replaceAllAux p r (p.length - 1) cs
       else c :: replaceAllAux p r 0 cs) from rfl]
  rw [if_pos h, replaceAllAux_skip]
  rfl

theorem replaceAll_cons_neg (p r : Str) (c : Char) (cs : Str)
    (h : leadsWith p (c :: cs) = false) :
    replaceAll p r (c :: cs) = c :: replaceAll p r cs := by
  show replaceAllAux p r 0 (c :: cs) = _
  rw [show replaceAllAux p r 0 (c :: cs) =
      (if leadsWith p (c :: cs) then r ++ replaceAllAux p r (p.length - 1) cs
       else c :: replaceAllAux p r 0 cs) from rfl]
  rw [if_neg (by simp [h])]
  rfl

theorem replaceAll_char_head (p r : Str) (hp : p ≠ []) (c : Char) (hc : c ∉ p) (y : Str) :
    replaceAll p r (c :: y) = c :: replaceAll p r y := by
  have hlw : leadsWith p (c :: y) = false := by
    cases p with
    | nil => exact absurd rfl hp
    | cons p0 ps =>
      have hne : (p0 == c) = false :=
        beq_eq_false_iff_ne.2 (fun h => hc (h ▸ List.mem_cons_self p0 ps))
      simp [leadsWith, hne]
  exact replaceAll_cons_neg p r c y hlw

/-- When `c` does not occur in the pattern, global replacement distributes
over splitting the subject at `c`: no match can cross the `c` boundary. -/
theorem replaceAll_append_char (p r : Str) (hp : p ≠ []) (c : Char) (hc : c ∉ p) :
    ∀ x y : Str, replaceAll p r (x ++ c :: y) = replaceAll p r x ++ c :: replaceAll p r y := by
  have key : ∀ (n : Nat) (x y : Str), x.length ≤ n →
      replaceAll p r (x ++ c :: y) = replaceAll p r x ++ c :: replaceAll p r y := by
    intro n
    induction n with
    | zero =>
      intro x y hle
      have hx : x = [] := List.eq_nil_of_length_eq_zero (Nat.le_zero.1 hle)
      subst hx
      rw [List.nil_append, replaceAll_char_head p r hp c hc y, replaceAll_nil, List.nil_append]
    | succ n ih =>
      intro x y hle
      cases x with
      | nil =>
        rw [List.nil_append, replaceAll_char_head p r hp c hc y, replaceAll_nil, List.nil_append]
      | cons a x' =>
        have hlen' : x'.length ≤ n := by
          simp only [List.length_cons] at hle
          omega
        by_cases hL : leadsWith p (a :: (x' ++ c :: y)) = true
        · have hplen : p.length ≤ (a :: x').length := by
            by_contra hgt
            push_neg at hgt
            exact hc (leadsWith_long_mem p (a :: x') c y hgt hL)
          have hLx : leadsWith p (a :: x') = true := by
            rw [← leadsWith_of_le p (a :: x') (c :: y) hplen]
            exact hL
          have hplen' : p.length - 1 ≤ x'.length := by
            simp only [List.length_cons] at hplen
            omega
          have hd : List.drop (p.length - 1) (x' ++ c :: y) =
              List.drop (p.length - 1) x' ++ c :: y :=
            List.drop_append_of_le_length hplen'
          have hdlen : (List.drop (p.length - 1) x').length ≤ n := by
            simp only [List.length_drop]
            omega
          calc replaceAll p r ((a :: x') ++ c :: y)
              = r ++ replaceAll p r (List.drop (p.length - 1) (x' ++ c :: y)) :=
                replaceAll_cons_pos p r a (x' ++ c :: y) hL
            _ = r ++ replaceAll p r (List.drop (p.length - 1) x' ++ c :: y) := by rw [hd]
            _ = r ++ (replaceAll p r (List.drop (p.length - 1) x') ++ c :: replaceAll p r y) := by
                rw [ih (List.drop (p.length - 1) x') y hdlen]
            _ = (r ++ replaceAll p r (List.drop (p.length - 1) x')) ++ c :: replaceAll p r y := by
                rw [List.append_assoc]
            _ = replaceAll p r (a :: x') ++ c :: replaceAll p r y := by
                rw [replaceAll_cons_pos p r a x' hLx]
        · have hLb : leadsWith p (a :: (x' ++ c :: y)) = false := by
            rcases Bool.eq_false_or_eq_true (leadsWith p (a :: (x' ++ c :: y))) with h | h
            · exact absurd h hL
            · exact h
          have hLxb : leadsWith p (a :: x') = false := by
            rcases Bool.eq_false_or_eq_true (leadsWith p (a :: x')) with h | h
            · exact absurd (leadsWith_mono p (a :: x') (c :: y) h) hL
            · exact h
          calc replaceAll p r ((a :: x') ++ c :: y)
              = a :: replaceAll p r (x' ++ c :: y) :=
                replaceAll_cons_neg p r a (x' ++ c :: y) hLb
            _ = a :: (replaceAll p r x' ++ c :: replaceAll p r y) := by rw [ih x' y hlen']
            _ = (a :: replaceAll p r x') ++ c :: replaceAll p r y := by rw [List.cons_append]
            _ = replaceAll p r (a :: x') ++ c :: replaceAll p r y := by
                rw [replaceAll_cons_neg p r a x' hLxb]
  intro x y
  exact key x.length x y (Nat.le_refl _)

/-- The four-pass domain rewrite distributes over a separator character that
occurs in none of the four pattern literals. -/
theorem rewriteDomains_append_char (origin bareHost : Str) (c : Char)
    (h1 : c ∉ str "https://bulianglin2023.dev") (h2 : c ∉ str "bulianglin2023.dev")
    (h3 : c ∉ str "https://api.v1.mk") (h4 : c ∉ str "api.v1.mk") (x y : Str) :
    rewriteDomains (x ++ c :: y) origin bareHost =
      rewriteDomains x origin bareHost ++ c :: rewriteDomains y origin bareHost := by
  simp only [rewriteDomains]
  rw [replaceAll_append_char _ origin (by decide) c h1 x y]
  rw [replaceAll_append_char _ bareHost (by decide) c h2]
  rw [replaceAll_append_char _ origin (by decide) c h3]
  rw [replaceAll_append_char _ bareHost (by decide) c h4]

/-! ### The URIs and cache writes of the fan-out loop -/

/-- The URIs the base64 explosion appends: one per link, with the node keys
drawn in order starting at random-draw index `ctr`. -/
def explodeUriList (rand : Nat → Nat) (host : Str) (ctr : Nat) : List Str → List Str
  | [] => []
  | _ :: rest => mkUri host (generateRandomStr rand ctr 16) :: explodeUriList rand host (ctr + 16) rest

theorem explodeLinks_uris (rand : Nat → Nat) (host : Str) : ∀ (links : List Str) (st : RState),
    (explodeLinks rand host links st).uris = st.uris ++ explodeUriList rand host st.ctr links := by
  intro links
  induction links with
  | nil => intro st; simp [explodeLinks, explodeUriList]
  | cons link rest ih =>
    intro st
    simp only [explodeLinks, explodeUriList]
    rw [ih]
    simp [List.append_assoc]

theorem explodeLinks_cache_extends (rand : Nat → Nat) (host : Str) :
    ∀ (links : List Str) (st : RState),
    ∃ pre : Cache, (explodeLinks rand host links st).cache = pre ++ st.cache := by
  intro links
  induction links with
  | nil => intro st; exact ⟨[], rfl⟩
  | cons link rest ih =>
    intro st
    simp only [explodeLinks]
    obtain ⟨pre, hpre⟩ := ih
      ⟨cacheSet (cacheSet st.cache (generateRandomStr rand st.ctr 16) link)
          (generateRandomStr rand st.ctr 16 ++ hdrSfx) ctPlainJson,
       st.ctr + 16, st.uris ++ [mkUri host (generateRandomStr rand st.ctr 16)]⟩
    refine ⟨pre ++ [(generateRandomStr rand st.ctr 16 ++ hdrSfx, ctPlainJson),
      (generateRandomStr rand st.ctr 16, link)], ?_⟩
    rw [hpre]
    simp [cacheSet, List.append_assoc]

/-! ### The resolvability invariant of the fan-out loop -/

/-- A key as produced by the key generator: 16 characters from `[a-z0-9]`. -/
def validKey (k : Str) : Prop := k.length = 16 ∧ ∀ ch ∈ k, ch ∈ keyCharsList

/-- The store holds non-empty content under `k` and some headers entry
under `k + '_headers'`. -/
def entryOK (cache : Cache) (k : Str) : Prop :=
  (∃ c, cacheGet cache k = some c ∧ c ≠ []) ∧ (∃ h, cacheGet cache (k ++ hdrSfx) = some h)

/-- Invariant of the fan-out loop: every accumulated URI points at a valid
key whose content and headers entries are already in the cache. -/
def goodState (host : Str) (st : RState) : Prop :=
  ∀ uri ∈ st.uris, ∃ k, uri = mkUri host k ∧ validKey k ∧ entryOK st.cache k

theorem validKey_gen (rand : Nat → Nat) (start : Nat) :
    validKey (generateRandomStr rand start 16) :=
  ⟨genStr_length rand start 16, genStr_mem rand start 16⟩

theorem entryOK_set (cache : Cache) (k k' v : Str) (hk : k.length = 16)
    (hOK : entryOK cache k) (hw : k'.length = 16 → v ≠ []) :
    entryOK (cacheSet cache k' v) k := by
  obtain ⟨⟨c, hc, hcne⟩, ⟨h, hh⟩⟩ := hOK
  constructor
  · by_cases he : k = k'
    · exact ⟨v, by rw [cacheGet_set, if_pos he], hw (he ▸ hk)⟩
    · exact ⟨c, by rw [cacheGet_set, if_neg he]; exact hc, hcne⟩
  · by_cases he : k ++ hdrSfx = k'
    · exact ⟨v, by rw [cacheGet_set, if_pos he]⟩
    · exact ⟨h, by rw [cacheGet_set, if_neg he]; exact hh⟩

theorem entryOK_set_hdr (cache : Cache) (k g v : Str) (hk : k.length = 16)
    (hg : g.length = 16) (hOK : entryOK cache k) : entryOK (cacheSet cache (g ++ hdrSfx) v) k := by
  refine entryOK_set cache k (g ++ hdrSfx) v hk hOK (fun h16 => ?_)
  exfalso
  rw [List.length_append, hg] at h16
  have : hdrSfx.length = 8 := by decide
  omega

/-- A freshly stored (content, headers) pair satisfies `entryOK`. -/
theorem entryOK_new (cache : Cache) (k v hv' : Str) (hv : v ≠ []) :
    entryOK (cacheSet (cacheSet cache k v) (k ++ hdrSfx) hv') k := by
  constructor
  · refine ⟨v, ?_, hv⟩
    rw [cacheGet_set, if_neg (ne_hdrKey k), cacheGet_set, if_pos rfl]
  · exact ⟨hv', by rw [cacheGet_set, if_pos rfl]⟩

theorem explodeLinks_inv (rand : Nat → Nat) (host : Str) : ∀ (links : List Str) (st : RState),
    (∀ l ∈ links, l ≠ []) → goodState host st →
    goodState host (explodeLinks rand host links st) := by
  intro links
  induction links with
  | nil => intro st _ hst; exact hst
  | cons link rest ih =>
    intro st hl hst
    simp only [explodeLinks]
    apply ih _ (fun l hl' => hl l (List.mem_cons_of_mem _ hl'))
    intro uri hu
    rcases List.mem_append.1 hu with h | h
    · obtain ⟨k, hk1, hk2, hk3⟩ := hst uri h
      refine ⟨k, hk1, hk2, ?_⟩
      have step1 : entryOK (cacheSet st.cache (generateRandomStr rand st.ctr 16) link) k :=
        entryOK_set st.cache k _ link hk2.1 hk3 (fun _ => hl link (List.mem_cons_self _ _))
      exact entryOK_set_hdr _ k _ ctPlainJson hk2.1 (genStr_length rand st.ctr 16) step1
    · have huri : uri = mkUri host (generateRandomStr rand st.ctr 16) := by simpa using h
      refine ⟨generateRandomStr rand st.ctr 16, huri, validKey_gen rand st.ctr, ?_⟩
      exact entryOK_new st.cache _ link ctPlainJson (hl link (List.mem_cons_self _ _))

theorem nonBlankLines_ne (s : Str) : ∀ l ∈ nonBlankLines s, l ≠ [] := by
  intro l hl
  simp only [nonBlankLines, List.mem_filter, decide_eq_true_eq] at hl
  intro hnil
  exact hl.2 (by rw [hnil]; rfl)

theorem jsTrim_nil_of_nil : jsTrim ([] : Str) = [] := rfl

theorem goodState_set_hdr (host : Str) (st : RState) (g w : Str) (hg : g.length = 16)
    (hst : goodState host st) :
    ∀ uri ∈ st.uris, ∃ k, uri = mkUri host k ∧ validKey k ∧
      entryOK (cacheSet st.cache (g ++ hdrSfx) w) k := by
  intro uri hu
  obtain ⟨k, h1, h2, h3⟩ := hst uri hu
  exact ⟨k, h1, h2, entryOK_set_hdr _ k g w h2.1 hg h3⟩

theorem store_push_good (host : Str) (cache0 : Cache) (uris0 : List Str) (n : Nat)
    (key v hjson : Str) (hkey : validKey key) (hv : v ≠ [])
    (hgood : ∀ uri ∈ uris0, ∃ k, uri = mkUri host k ∧ validKey k ∧ entryOK cache0 k) :
    goodState host ⟨cacheSet (cacheSet cache0 key v) (key ++ hdrSfx) hjson, n,
      uris0 ++ [mkUri host key]⟩ := by
  intro uri hu
  rcases List.mem_append.1 hu with h | h
  · obtain ⟨k, hk1, hk2, hk3⟩ := hgood uri h
    exact ⟨k, hk1, hk2,
      entryOK_set_hdr _ k key hjson hk2.1 hkey.1
        (entryOK_set cache0 k key v hk2.1 hk3 (fun _ => hv))⟩
  · have huri : uri = mkUri host key := by simpa using h
    exact ⟨key, huri, hkey, entryOK_new cache0 key v hjson hv⟩

theorem processUrlPart_inv (rand : Nat → Nat) (env : FetchEnv) (host : Str) (st : RState)
    (seg : Str) (hseg : jsTrim seg ≠ []) (hst : goodState host st) :
    goodState host (processUrlPart rand env host st seg) := by
  have hsegne : seg ≠ [] := fun h => hseg (by rw [h]; rfl)
  simp only [processUrlPart]
  split
  · -- URL branch
    split
    · exact hst
    · split
      · split
        · exact hst
        · rename_i resp hresp hok hbody
          have hbne : resp.body ≠ [] := by
            intro h
            exact hbody (Or.inl h)
          split
          · -- base64 explosion
            apply explodeLinks_inv
            · exact nonBlankLines_ne _
            · intro uri hu
              exact goodState_set_hdr host st _ resp.headersJson
                (genStr_length rand st.ctr 16) hst uri hu
          · split
            · exact store_push_good host _ st.uris _ _ resp.body ctUtf8Json
                (validKey_gen rand st.ctr) hbne
                (goodState_set_hdr host st _ resp.headersJson
                  (genStr_length rand st.ctr 16) hst)
            · exact store_push_good host _ st.uris _ _ resp.body ctUtf8Json
                (validKey_gen rand st.ctr) hbne
                (goodState_set_hdr host st _ resp.headersJson
                  (genStr_length rand st.ctr 16) hst)
      · exact hst
  · split
    · -- direct node link
      exact store_push_good host st.cache st.uris _ _ seg ctPlainJson
        (validKey_gen rand st.ctr) hsegne hst
    · split
      · -- fallback, atob succeeded
        split
        · apply explodeLinks_inv
          · exact nonBlankLines_ne _
          · exact hst
        · exact hst
      · -- fallback, atob threw
        exact store_push_good host st.cache st.uris _ _ seg ctPlainJson
          (validKey_gen rand st.ctr) hsegne hst

theorem runFanout_inv (rand : Nat → Nat) (env : FetchEnv) (host : Str) :
    ∀ (segs : List Str) (st : RState),
    (∀ s ∈ segs, jsTrim s ≠ []) → goodState host st →
    goodState host (runFanout rand env host segs st) := by
  intro segs
  induction segs with
  | nil => intro st _ h; exact h
  | cons s rest ih =>
    intro st hall hst
    exact ih (processUrlPart rand env host st s)
      (fun x hx => hall x (List.mem_cons_of_mem _ hx))
      (processUrlPart_inv rand env host st s (hall s (List.mem_cons_self _ _)) hst)

theorem validKey_guards (k : Str) (hk : validKey k) :
    k ≠ [] ∧ hasSub (str "/") k = false ∧ hasSub (str "..") k = false := by
  refine ⟨?_, ?_, ?_⟩
  · intro h
    rw [h] at hk
    exact absurd hk.1 (by decide)
  · rcases Bool.eq_false_or_eq_true (hasSub (str "/") k) with h | h
    · exact absurd (hk.2 '/' (hasSub_head_mem '/' [] k h)) (by decide)
    · exact h
  · rcases Bool.eq_false_or_eq_true (hasSub (str "..") k) with h | h
    · exact absurd (hk.2 '.' (hasSub_head_mem '.' ['.'] k h)) (by decide)
    · exact h

theorem subGet_of_entry (cache : Cache) (k content : Str) (hk : k ≠ [])
    (h1 : hasSub (str "/") k = false) (h2 : hasSub (str "..") k = false)
    (hget : cacheGet cache k = some content) (hc : content ≠ []) :
    (handleSubscriptionGet cache (str "/subscription/" ++ k)).status = 200 ∧
    (handleSubscriptionGet cache (str "/subscription/" ++ k)).body = content := by
  have hkey : replaceFirst (str "/subscription/") [] (str "/subscription/" ++ k) = k := by
    rw [replaceFirst_cancel _ _ _ (by decide)]
    rfl
  have hguard : ¬(k = [] ∨ hasSub (str "/") k = true ∨ hasSub (str "..") k = true) := by
    simp [hk, h1, h2]
  simp only [handleSubscriptionGet, hkey]
  rw [if_neg hguard, hget]
  simp [hc]

/-! ### Concrete fixtures used by witnesses and counterexamples -/

/-- A concrete random supply: the i-th draw is i. -/
def myRand : Nat → Nat := fun i => i

/-- A fetch environment in which every request fails. -/
def envNone : FetchEnv := fun _ => none

/-- A concrete request origin. -/
def host0 : Str := str "https://example.com"

/-- A fetch environment with one reachable URL returning a plain-text body
and original headers serialized as `ORIGHDRS`. -/
def env9 : FetchEnv := fun u =>
  if u = str "http://a.example/s" then
    some ⟨200, str "hello world contents!", str "ORIGHDRS", some (str "application/json")⟩
  else none

/-- A concrete `/sub` request carrying both `url` and `target=clash`. -/
def req6 : ReqUrl :=
  ⟨str "https://example.com", str "example.com", str "/sub",
   str "?url=vmess://abc&target=clash",
   fun q =>
     if q = str "url" then some (str "vmess://abc")
     else if q = str "target" then some (str "clash") else none⟩

/-- A concrete `/sub` request whose only segment is an unreachable URL. -/
def reqFail : ReqUrl :=
  ⟨str "https://example.com", str "example.com", str "/sub",
   str "?url=http://x.example/a",
   fun q => if q = str "url" then some (str "http://x.example/a") else none⟩

/-! ### Claims -/

/-- C1: for every input, `parseData` trims the input and, when the trimmed
text passes the base64 alphabet pattern with length > 20 and `atob` of the
whitespace-stripped text succeeds with a decode containing `://`, returns
format base64 with the decoded text; when the gate fails, the decode fails,
or the decode lacks `://`, it falls through to the yaml check, then the
direct node-link check, then unknown — always on the trimmed text. -/
theorem c1_classifier_precedence (d : Str) :
    (∀ dec, b64Gate (jsTrim d) = true →
        atobJs (removeWs (jsTrim d)) = some dec →
        hasSub (str "://") dec = true →
        parseData d = ⟨.base64, dec⟩)
  ∧ (b64Gate (jsTrim d) = false → parseData d = restChecks (jsTrim d))
  ∧ (atobJs (removeWs (jsTrim d)) = none → parseData d = restChecks (jsTrim d))
  ∧ (∀ dec, atobJs (removeWs (jsTrim d)) = some dec →
        hasSub (str "://") dec = false → parseData d = restChecks (jsTrim d))
  ∧ restChecks (jsTrim d) =
      (if hasSub (str "proxies:") (jsTrim d) || hasSub (str "Proxy:") (jsTrim d) then
        ⟨.yaml, jsTrim d⟩
      else if directLinkTest (jsTrim d) then ⟨.direct, jsTrim d⟩
      else ⟨.unknown, jsTrim d⟩) := by
  refine ⟨?_, ?_, ?_, ?_, rfl⟩
  · intro dec h1 h2 h3
    simp [parseData, h1, h2, h3]
  · intro h
    simp [parseData, h]
  · intro h
    by_cases hg : b64Gate (jsTrim d) = true
    · simp [parseData, hg, h]
    · simp [parseData, hg]
  · intro dec h2 h3
    by_cases hg : b64Gate (jsTrim d) = true
    · simp [parseData, hg, h2, h3]
    · simp [parseData, hg]

theorem c1_classifier_precedence_witness :
    b64Gate (jsTrim (btoaJs (str "vmess://abcdefghij"))) = true
  ∧ atobJs (removeWs (jsTrim (btoaJs (str "vmess://abcdefghij")))) =
      some (str "vmess://abcdefghij")
  ∧ hasSub (str "://") (str "vmess://abcdefghij") = true
  ∧ parseData (btoaJs (str "vmess://abcdefghij")) = ⟨.base64, str "vmess://abcdefghij"⟩ :=
  ⟨by decide, by decide, by decide,
   (c1_classifier_precedence _).1 _ (by decide) (by decide) (by decide)⟩

/-- C3 counterexample: on the input consisting of a leading space and
`aaaaaaaaaaaaaaaaaaaa=a`, the base64 gate passes and decoding throws
(`atobJs` is `none`), yet the classifier returns unknown with the TRIMMED
text, not with the original untrimmed input as claimed. -/
theorem c3_totality_counterexample :
    b64Gate (jsTrim (str " aaaaaaaaaaaaaaaaaaaa=a")) = true
  ∧ atobJs (removeWs (jsTrim (str " aaaaaaaaaaaaaaaaaaaa=a"))) = none
  ∧ parseData (str " aaaaaaaaaaaaaaaaaaaa=a") = ⟨.unknown, str "aaaaaaaaaaaaaaaaaaaa=a"⟩
  ∧ ¬ parseData (str " aaaaaaaaaaaaaaaaaaaa=a") =
      ⟨.unknown, str " aaaaaaaaaaaaaaaaaaaa=a"⟩ := by
  refine ⟨by decide, by decide, by decide, by decide⟩

/-- C3 amended: `parseData` is total and returns exactly one of the four
format tags; a decoding failure is caught and falls through to the
yaml/direct/unknown checks on the TRIMMED text (so the returned data on the
fall-through path is the trimmed, not the original untrimmed, input). -/
theorem c3_totality_amended (d : Str) :
    ((parseData d).format = .base64 ∨ (parseData d).format = .yaml ∨
     (parseData d).format = .direct ∨ (parseData d).format = .unknown)
  ∧ (atobJs (removeWs (jsTrim d)) = none → parseData d = restChecks (jsTrim d))
  ∧ (restChecks (jsTrim d)).data = jsTrim d := by
  refine ⟨?_, ?_, ?_⟩
  · cases h : (parseData d).format
    · exact Or.inl rfl
    · exact Or.inr (Or.inl rfl)
    · exact Or.inr (Or.inr (Or.inl rfl))
    · exact Or.inr (Or.inr (Or.inr rfl))
  · intro h
    by_cases hg : b64Gate (jsTrim d) = true
    · simp [parseData, hg, h]
    · simp [parseData, hg]
  · unfold restChecks
    split
    · rfl
    · split
      · rfl
      · rfl

theorem c3_totality_amended_witness :
    atobJs (removeWs (jsTrim (str " aaaaaaaaaaaaaaaaaaaa=a"))) = none
  ∧ parseData (str " aaaaaaaaaaaaaaaaaaaa=a") =
      restChecks (jsTrim (str " aaaaaaaaaaaaaaaaaaaa=a")) :=
  ⟨by decide, (c3_totality_amended (str " aaaaaaaaaaaaaaaaaaaa=a")).2.1 (by decide)⟩

/-- C2 counterexample: the segment `abcd` is neither a URL nor a direct node
link, its `atob` decode SUCCEEDS (into three garbage bytes whose
classification is not base64), and the fan-out loop produces no output URI
and writes nothing to the store for it — the segment is dropped, refuting
"every such segment contributes at least one output URI". -/
theorem c2_fallback_counterexample :
    (atobJs (removeWs (str "abcd"))).isSome = true
  ∧ leadsWith (str "https://") (str "abcd") = false
  ∧ leadsWith (str "http://") (str "abcd") = false
  ∧ directLinkTest (str "abcd") = false
  ∧ (runFanout myRand envNone host0 [str "abcd"] ⟨[], 0, []⟩).uris = []
  ∧ (runFanout myRand envNone host0 [str "abcd"] ⟨[], 0, []⟩).cache = [] := by
  refine ⟨by decide, by decide, by decide, by decide, by decide, by decide⟩

/-- C2 amended: for a segment that is neither an http(s) URL nor a direct
node link, the loop base64-decodes the segment itself; when the decode
throws it stores the segment verbatim under a fresh key and appends one URI;
when the decode succeeds and the decoded text classifies as base64 it
appends one URI per non-blank decoded line; but when the decode succeeds and
the decoded text does NOT classify as base64, the segment contributes no
output URI and no store write. -/
theorem c2_fallback_amended (rand : Nat → Nat) (env : FetchEnv) (host : Str)
    (st : RState) (seg : Str)
    (h1 : leadsWith (str "https://") seg = false)
    (h2 : leadsWith (str "http://") seg = false)
    (h3 : directLinkTest seg = false) :
    (atobJs (removeWs seg) = none →
      processUrlPart rand env host st seg =
        ⟨cacheSet (cacheSet st.cache (generateRandomStr rand st.ctr 16) seg)
            (generateRandomStr rand st.ctr 16 ++ hdrSfx) ctPlainJson,
         st.ctr + 16, st.uris ++ [mkUri host (generateRandomStr rand st.ctr 16)]⟩)
  ∧ (∀ dec, atobJs (removeWs seg) = some dec → (parseData dec).format ≠ .base64 →
      processUrlPart rand env host st seg = ⟨st.cache, st.ctr + 16, st.uris⟩)
  ∧ (∀ dec, atobJs (removeWs seg) = some dec → (parseData dec).format = .base64 →
      (processUrlPart rand env host st seg).uris =
        st.uris ++ explodeUriList rand host (st.ctr + 16)
          (nonBlankLines (parseData dec).data)) := by
  refine ⟨?_, ?_, ?_⟩
  · intro h
    simp [processUrlPart, h1, h2, h3, h]
  · intro dec h hfmt
    simp [processUrlPart, h1, h2, h3, h, hfmt]
  · intro dec h hfmt
    simp only [processUrlPart, h1, h2, h3, h, hfmt, Bool.or_self, Bool.false_eq_true,
      if_false, if_true]
    rw [explodeLinks_uris]

theorem c2_fallback_amended_witness :
    leadsWith (str "https://") (str "abcd") = false
  ∧ leadsWith (str "http://") (str "abcd") = false
  ∧ directLinkTest (str "abcd") = false
  ∧ atobJs (removeWs (str "abcd")) =
      some [Char.ofNat 105, Char.ofNat 183, Char.ofNat 29]
  ∧ (parseData [Char.ofNat 105, Char.ofNat 183, Char.ofNat 29]).format ≠ .base64
  ∧ processUrlPart myRand envNone host0 ⟨[], 0, []⟩ (str "abcd") = ⟨[], 16, []⟩ :=
  ⟨by decide, by decide, by decide, by decide, by decide,
   (c2_fallback_amended myRand envNone host0 ⟨[], 0, []⟩ (str "abcd")
      (by decide) (by decide) (by decide)).2.1
     [Char.ofNat 105, Char.ofNat 183, Char.ofNat 29] (by decide) (by decide)⟩

/-- C5: a URL segment whose fetch fails (network error, non-2xx, or blank
body) is skipped — the loop state is unchanged apart from the consumed
random draws — and the request as a whole fails with the all-invalid 400
response exactly when the final URI list is empty, answering 200 otherwise. -/
theorem c5_segment_failure_isolation :
    (∀ (rand : Nat → Nat) (env : FetchEnv) (host : Str) (st : RState) (seg : Str),
      (leadsWith (str "https://") seg = true ∨ leadsWith (str "http://") seg = true) →
      (env seg = none ∨
        (∃ r, env seg = some r ∧ (¬ rok r ∨ r.body = [] ∨ jsTrim r.body = []))) →
      processUrlPart rand env host st seg = ⟨st.cache, st.ctr + 16, st.uris⟩)
  ∧ (∀ (rand : Nat → Nat) (env : FetchEnv) (req : ReqUrl) (cache0 : Cache) (tu : Str),
      req.params (str "url") = some tu → tu ≠ [] → splitSegs tu ≠ [] →
      ((runFanout rand env req.origin (splitSegs tu) ⟨cache0, 0, []⟩).uris = [] →
        processSubscriptionV1 rand env req cache0 =
          (⟨400, str "Error: All subscription links are invalid or returned empty content.", []⟩,
           (runFanout rand env req.origin (splitSegs tu) ⟨cache0, 0, []⟩).cache))
      ∧ ((runFanout rand env req.origin (splitSegs tu) ⟨cache0, 0, []⟩).uris ≠ [] →
        (processSubscriptionV1 rand env req cache0).1.status = 200)) := by
  constructor
  · intro rand env host st seg hurl hfail
    have hcond : (leadsWith (str "https://") seg || leadsWith (str "http://") seg) = true := by
      rcases hurl with h | h <;> simp [h]
    rcases hfail with hnone | ⟨r, hr, hbad⟩
    · simp [processUrlPart, hcond, hnone]
    · rcases hbad with hok | hbody
      · simp [processUrlPart, hcond, hr, hok]
      · have hb : r.body = [] ∨ jsTrim r.body = [] := hbody
        by_cases hok : rok r
        · simp [processUrlPart, hcond, hr, hok, hb]
        · simp [processUrlPart, hcond, hr, hok]
  · intro rand env req cache0 tu hu htu hsegs
    constructor
    · intro hempty
      simp [processSubscriptionV1, hu, htu, fanoutResponse, hsegs, runFanout] at hempty ⊢
      simp [hempty]
    · intro hne
      simp [processSubscriptionV1, hu, htu, fanoutResponse, hsegs, runFanout] at hne ⊢
      simp [hne]

theorem c5_segment_failure_isolation_witness :
    reqFail.params (str "url") = some (str "http://x.example/a")
  ∧ str "http://x.example/a" ≠ []
  ∧ splitSegs (str "http://x.example/a") ≠ []
  ∧ (runFanout myRand envNone reqFail.origin (splitSegs (str "http://x.example/a"))
      ⟨[], 0, []⟩).uris = []
  ∧ processSubscriptionV1 myRand envNone reqFail [] =
      (⟨400, str "Error: All subscription links are invalid or returned empty content.", []⟩,
       []) :=
  ⟨by decide, by decide, by decide, by decide, by
    have h := (c5_segment_failure_isolation.2 myRand envNone reqFail []
      (str "http://x.example/a") (by decide) (by decide) (by decide)).1 (by decide)
    simpa using h⟩

/-- C4: content stored under a well-formed key round-trips byte-for-byte
through `GET /subscription/key` with the stored headers entry (or the
default Content-Type when none is stored); and resolving
`vmess://abc|vless://xyz` consults the network for nothing (the result is
the same under every fetch environment), produces exactly two URIs, and each
URI's key serves the original literal link with the `text/plain` header. -/
theorem c4_roundtrip :
    (∀ (cache : Cache) (k content : Str),
      k ≠ [] → hasSub (str "/") k = false → hasSub (str "..") k = false →
      cacheGet cache k = some content → content ≠ [] →
      handleSubscriptionGet cache (str "/subscription/" ++ k) =
        ⟨200, content,
         match cacheGet cache (k ++ hdrSfx) with
         | some h => if h = [] then ctUtf8Json else h
         | none => ctUtf8Json⟩)
  ∧ (∀ env env' : FetchEnv,
      runFanout myRand env host0 (splitSegs (str "vmess://abc|vless://xyz")) ⟨[], 0, []⟩ =
      runFanout myRand env' host0 (splitSegs (str "vmess://abc|vless://xyz")) ⟨[], 0, []⟩)
  ∧ (runFanout myRand envNone host0 (splitSegs (str "vmess://abc|vless://xyz"))
      ⟨[], 0, []⟩).uris =
      [str "https://example.com/subscription/abcdefghijklmnop",
       str "https://example.com/subscription/qrstuvwxyz012345"]
  ∧ handleSubscriptionGet
      (runFanout myRand envNone host0 (splitSegs (str "vmess://abc|vless://xyz"))
        ⟨[], 0, []⟩).cache
      (str "/subscription/abcdefghijklmnop") = ⟨200, str "vmess://abc", ctPlainJson⟩
  ∧ handleSubscriptionGet
      (runFanout myRand envNone host0 (splitSegs (str "vmess://abc|vless://xyz"))
        ⟨[], 0, []⟩).cache
      (str "/subscription/qrstuvwxyz012345") = ⟨200, str "vless://xyz", ctPlainJson⟩ := by
  refine ⟨?_, fun env env' => rfl, by decide, by decide, by decide⟩
  intro cache k content hk h1 h2 hget hc
  have hkey : replaceFirst (str "/subscription/") [] (str "/subscription/" ++ k) = k := by
    rw [replaceFirst_cancel _ _ _ (by decide)]
    rfl
  have hguard : ¬(k = [] ∨ hasSub (str "/") k = true ∨ hasSub (str "..") k = true) := by
    simp [hk, h1, h2]
  simp only [handleSubscriptionGet, hkey]
  rw [if_neg hguard, hget]
  simp [hc]

theorem c4_roundtrip_witness :
    cacheGet [(str "k123", str "C")] (str "k123") = some (str "C")
  ∧ str "C" ≠ ([] : Str)
  ∧ handleSubscriptionGet [(str "k123", str "C")] (str "/subscription/k123") =
      ⟨200, str "C", ctUtf8Json⟩ :=
  ⟨by decide, by decide,
   c4_roundtrip.1 [(str "k123", str "C")] (str "k123") (str "C")
     (by decide) (by decide) (by decide) (by decide) (by decide)⟩

/-- C8: a `/subscription/` key that is empty or contains `/` or `..` is
rejected with 400 `Invalid key` for EVERY cache state (so before and
independent of any store lookup); a well-formed key with no stored entry
yields 404 `Not Found`. -/
theorem c8_key_validation :
    (∀ (cache : Cache) (k : Str),
      (k = [] ∨ hasSub (str "/") k = true ∨ hasSub (str "..") k = true) →
      handleSubscriptionGet cache (str "/subscription/" ++ k) =
        ⟨400, str "Invalid key", []⟩)
  ∧ (∀ (cache : Cache) (k : Str),
      k ≠ [] → hasSub (str "/") k = false → hasSub (str "..") k = false →
      cacheGet cache k = none →
      handleSubscriptionGet cache (str "/subscription/" ++ k) =
        ⟨404, str "Not Found", []⟩) := by
  constructor
  · intro cache k hbad
    have hkey : replaceFirst (str "/subscription/") [] (str "/subscription/" ++ k) = k := by
      rw [replaceFirst_cancel _ _ _ (by decide)]
      rfl
    simp only [handleSubscriptionGet, hkey]
    rw [if_pos hbad]
  · intro cache k hk h1 h2 hget
    have hkey : replaceFirst (str "/subscription/") [] (str "/subscription/" ++ k) = k := by
      rw [replaceFirst_cancel _ _ _ (by decide)]
      rfl
    have hguard : ¬(k = [] ∨ hasSub (str "/") k = true ∨ hasSub (str "..") k = true) := by
      simp [hk, h1, h2]
    simp only [handleSubscriptionGet, hkey]
    rw [if_neg hguard, hget]

theorem c8_key_validation_witness :
    (str "..%2fetc%2fpasswd" = ([] : Str) ∨
      hasSub (str "/") (str "..%2fetc%2fpasswd") = true ∨
      hasSub (str "..") (str "..%2fetc%2fpasswd") = true)
  ∧ handleSubscriptionGet [(str "secret", str "S")]
      (str "/subscription/..%2fetc%2fpasswd") = ⟨400, str "Invalid key", []⟩
  ∧ cacheGet ([] : Cache) (str "freshkey00000000") = none
  ∧ handleSubscriptionGet ([] : Cache) (str "/subscription/freshkey00000000") =
      ⟨404, str "Not Found", []⟩ :=
  ⟨by decide,
   c8_key_validation.1 [(str "secret", str "S")] (str "..%2fetc%2fpasswd") (by decide),
   by decide,
   c8_key_validation.2 [] (str "freshkey00000000")
     (by decide) (by decide) (by decide) (by decide)⟩

/-- C6 counterexample: in the `part_001` variant the `/sub` handler has no
`target` branch — on a request carrying `target=clash` it still runs the
fan-out resolver: with no backend reachable at all (every fetch fails) it
stores the node under a fresh key and answers with the fan-out's own 200
response, refuting "never invokes the Fan-out Resolver, always delegates to
the Backend Forwarder". -/
theorem c6_target_counterexample :
    req6.params (str "target") = some (str "clash")
  ∧ processSubscriptionV1 myRand envNone req6 [] =
      (⟨200, btoaJs (str "https://example.com/subscription/abcdefghijklmnop"), []⟩,
       [(str "abcdefghijklmnop" ++ hdrSfx, ctPlainJson),
        (str "abcdefghijklmnop", str "vmess://abc")]) := by
  refine ⟨by decide, by decide⟩

/-- C6 amended: in the `part_000` variant, whenever `url` is present and
non-empty and `target` is present and NON-EMPTY (truthy), `/sub` delegates
to `forwardToBackend` with the cache untouched and no dependence on the
fan-out machinery, and the only backend request is
`backend + pathname + search` — the original path and full query string
verbatim, hence `url`, `target` and all other parameters unmodified; the
`part_001` variant ignores `target` and always runs the fan-out resolver. -/
theorem c6_target_delegation (rand : Nat → Nat) (env : FetchEnv) (bf : FetchEnv)
    (backend : Str) (req : ReqUrl) (cache0 : Cache) (tu tg : Str)
    (hu : req.params (str "url") = some tu) (hu2 : tu ≠ [])
    (ht : req.params (str "target") = some tg) (ht2 : tg ≠ []) :
    processSubscriptionV0 rand env bf backend req cache0 =
      (forwardToBackend bf backend req, cache0)
  ∧ (∀ bf' : FetchEnv,
      bf (backend ++ req.pathname ++ req.search) = bf' (backend ++ req.pathname ++ req.search) →
      forwardToBackend bf backend req = forwardToBackend bf' backend req) := by
  constructor
  · simp [processSubscriptionV0, hu, hu2, ht, ht2]
  · intro bf' hbf
    unfold forwardToBackend
    rw [hbf]

theorem c6_target_delegation_witness :
    req6.params (str "url") = some (str "vmess://abc")
  ∧ (str "vmess://abc" : Str) ≠ []
  ∧ req6.params (str "target") = some (str "clash")
  ∧ (str "clash" : Str) ≠ []
  ∧ processSubscriptionV0 myRand envNone envNone (str "https://api.v1.mk") req6 [] =
      (forwardToBackend envNone (str "https://api.v1.mk") req6, []) :=
  ⟨by decide, by decide, by decide, by decide,
   (c6_target_delegation myRand envNone envNone (str "https://api.v1.mk") req6 []
     (str "vmess://abc") (str "clash") (by decide) (by decide) (by decide) (by decide)).1⟩

/-- C7: the backend forwarder's domain rewrite replaces the
`https://api.v1.mk` form by the request's full origin and the bare
`api.v1.mk` form by the bare host, across any separator character not
occurring in the pattern literals, and the per-fragment results are the same
whichever literal occurs first in the body. -/
theorem c7_domain_rewrite (c : Char)
    (h1 : c ∉ str "https://bulianglin2023.dev") (h2 : c ∉ str "bulianglin2023.dev")
    (h3 : c ∉ str "https://api.v1.mk") (h4 : c ∉ str "api.v1.mk") :
    rewriteDomains (str "https://api.v1.mk/foo" ++ c :: str "api.v1.mk")
        (str "https://example.com") (str "example.com") =
      str "https://example.com/foo" ++ c :: str "example.com"
  ∧ rewriteDomains (str "api.v1.mk" ++ c :: str "https://api.v1.mk/foo")
        (str "https://example.com") (str "example.com") =
      str "example.com" ++ c :: str "https://example.com/foo" := by
  have hA : rewriteDomains (str "https://api.v1.mk/foo") (str "https://example.com")
      (str "example.com") = str "https://example.com/foo" := by decide
  have hB : rewriteDomains (str "api.v1.mk") (str "https://example.com")
      (str "example.com") = str "example.com" := by decide
  constructor
  · rw [rewriteDomains_append_char _ _ c h1 h2 h3 h4, hA, hB]
  · rw [rewriteDomains_append_char _ _ c h1 h2 h3 h4, hA, hB]

theorem c7_domain_rewrite_witness :
    (' ' ∉ str "https://bulianglin2023.dev")
  ∧ (' ' ∉ str "bulianglin2023.dev")
  ∧ (' ' ∉ str "https://api.v1.mk")
  ∧ (' ' ∉ str "api.v1.mk")
  ∧ rewriteDomains (str "https://api.v1.mk/foo" ++ ' ' :: str "api.v1.mk")
        (str "https://example.com") (str "example.com") =
      str "https://example.com/foo" ++ ' ' :: str "example.com" :=
  ⟨by decide, by decide, by decide, by decide,
   (c7_domain_rewrite ' ' (by decide) (by decide) (by decide) (by decide)).1⟩

/-- C9 counterexample: a URL fetch succeeds with original headers serialized
as `ORIGHDRS`, but after the single-URL (non-base64) branch the headers
entry associated with the stored content is the fixed
`text/plain;charset=UTF-8` one — retrieval serves the fixed header, not the
captured original headers. -/
theorem c9_headers_counterexample :
    env9 (str "http://a.example/s") =
      some ⟨200, str "hello world contents!", str "ORIGHDRS", some (str "application/json")⟩
  ∧ cacheGet (runFanout myRand env9 host0 [str "http://a.example/s"] ⟨[], 0, []⟩).cache
      (str "abcdefghijklmnop" ++ hdrSfx) = some ctUtf8Json
  ∧ (handleSubscriptionGet
      (runFanout myRand env9 host0 [str "http://a.example/s"] ⟨[], 0, []⟩).cache
      (str "/subscription/abcdefghijklmnop")).hdrs = ctUtf8Json
  ∧ ctUtf8Json ≠ str "ORIGHDRS" := by
  refine ⟨by decide, by decide, by decide, by decide⟩

/-- C9 amended: on a successful URL fetch with non-blank body the original
response headers are written under `key_headers`, but in the non-base64
branches that entry is then overwritten with the fixed
`text/plain;charset=UTF-8` header (so retrieval serves the fixed header, not
the original ones); in the base64 branch the original-header write remains
in the cache but under a key that receives no content. -/
theorem c9_headers_amended (rand : Nat → Nat) (env : FetchEnv) (host : Str)
    (st : RState) (seg : Str) (resp : FetchResult)
    (hurl : leadsWith (str "https://") seg = true ∨ leadsWith (str "http://") seg = true)
    (henv : env seg = some resp) (hok : rok resp)
    (hbody : ¬(resp.body = [] ∨ jsTrim resp.body = [])) :
    ((parseData resp.body).format ≠ .base64 →
      cacheGet (processUrlPart rand env host st seg).cache
          (generateRandomStr rand st.ctr 16 ++ hdrSfx) = some ctUtf8Json
      ∧ cacheGet (processUrlPart rand env host st seg).cache
          (generateRandomStr rand st.ctr 16) = some resp.body)
  ∧ ((parseData resp.body).format = .base64 →
      ∃ pre, (processUrlPart rand env host st seg).cache =
        pre ++ cacheSet st.cache (generateRandomStr rand st.ctr 16 ++ hdrSfx) resp.headersJson) := by
  have hcond : (leadsWith (str "https://") seg || leadsWith (str "http://") seg) = true := by
    rcases hurl with h | h <;> simp [h]
  constructor
  · intro hfmt
    simp only [processUrlPart, hcond, henv, hok, hbody, hfmt, if_true, if_false,
      ite_self]
    constructor
    · rw [cacheGet_set, if_pos rfl]
    · rw [cacheGet_set, if_neg (ne_hdrKey _), cacheGet_set, if_pos rfl]
  · intro hfmt
    simp only [processUrlPart, hcond, henv, hok, hbody, hfmt, if_true, if_false]
    exact explodeLinks_cache_extends rand host _ _

theorem c9_headers_amended_witness :
    env9 (str "http://a.example/s") =
      some ⟨200, str "hello world contents!", str "ORIGHDRS", some (str "application/json")⟩
  ∧ (parseData (str "hello world contents!")).format ≠ .base64
  ∧ cacheGet (processUrlPart myRand env9 host0 ⟨[], 0, []⟩ (str "http://a.example/s")).cache
      (str "abcdefghijklmnop" ++ hdrSfx) = some ctUtf8Json
  ∧ cacheGet (processUrlPart myRand env9 host0 ⟨[], 0, []⟩ (str "http://a.example/s")).cache
      (str "abcdefghijklmnop") = some (str "hello world contents!") :=
  ⟨by decide, by decide,
   ((c9_headers_amended myRand env9 host0 ⟨[], 0, []⟩ (str "http://a.example/s")
      ⟨200, str "hello world contents!", str "ORIGHDRS", some (str "application/json")⟩
      (Or.inr (by decide)) (by decide) (by decide) (by decide)).1 (by decide)).1,
   ((c9_headers_amended myRand env9 host0 ⟨[], 0, []⟩ (str "http://a.example/s")
      ⟨200, str "hello world contents!", str "ORIGHDRS", some (str "application/json")⟩
      (Or.inr (by decide)) (by decide) (by decide) (by decide)).1 (by decide)).2⟩

/-- C10: every URI the fan-out loop emits has the form
`host/subscription/key` for a 16-character `[a-z0-9]` key under which
non-empty content and a headers entry are stored, and the same process's
`GET /subscription/key` route answers 200 with that content. -/
theorem c10_fanout_invariant (rand : Nat → Nat) (env : FetchEnv) (host : Str)
    (targetUrl : Str) (cache0 : Cache) :
    ∀ uri ∈ (runFanout rand env host (splitSegs targetUrl) ⟨cache0, 0, []⟩).uris,
      ∃ k c, uri = mkUri host k ∧ k.length = 16 ∧ (∀ ch ∈ k, ch ∈ keyCharsList) ∧
        cacheGet (runFanout rand env host (splitSegs targetUrl) ⟨cache0, 0, []⟩).cache k =
          some c ∧
        c ≠ [] ∧
        (∃ h, cacheGet (runFanout rand env host (splitSegs targetUrl) ⟨cache0, 0, []⟩).cache
          (k ++ hdrSfx) = some h) ∧
        (handleSubscriptionGet
          (runFanout rand env host (splitSegs targetUrl) ⟨cache0, 0, []⟩).cache
          (str "/subscription/" ++ k)).status = 200 ∧
        (handleSubscriptionGet
          (runFanout rand env host (splitSegs targetUrl) ⟨cache0, 0, []⟩).cache
          (str "/subscription/" ++ k)).body = c := by
  intro uri hu
  have hsegs : ∀ s ∈ splitSegs targetUrl, jsTrim s ≠ [] := by
    intro s hs
    simp only [splitSegs, List.mem_filter, decide_eq_true_eq] at hs
    exact hs.2
  have hinit : goodState host (⟨cache0, 0, []⟩ : RState) := by
    intro u hu2
    simp at hu2
  have hgood := runFanout_inv rand env host (splitSegs targetUrl) ⟨cache0, 0, []⟩ hsegs hinit
  obtain ⟨k, hk1, hk2, ⟨⟨c, hc1, hc2⟩, ⟨h, hh⟩⟩⟩ := hgood uri hu
  obtain ⟨hne, hslash, hdots⟩ := validKey_guards k hk2
  obtain ⟨hstat, hbody⟩ := subGet_of_entry _ k c hne hslash hdots hc1 hc2
  exact ⟨k, c, hk1, hk2.1, hk2.2, hc1, hc2, ⟨h, hh⟩, hstat, hbody⟩

theorem c10_fanout_invariant_witness :
    str "https://example.com/subscription/abcdefghijklmnop" ∈
      (runFanout myRand envNone host0 (splitSegs (str "vmess://abc")) ⟨[], 0, []⟩).uris
  ∧ ∃ k c, str "https://example.com/subscription/abcdefghijklmnop" = mkUri host0 k ∧
      k.length = 16 ∧ (∀ ch ∈ k, ch ∈ keyCharsList) ∧
      cacheGet (runFanout myRand envNone host0 (splitSegs (str "vmess://abc"))
        ⟨[], 0, []⟩).cache k = some c ∧
      c ≠ [] ∧
      (∃ h, cacheGet (runFanout myRand envNone host0 (splitSegs (str "vmess://abc"))
        ⟨[], 0, []⟩).cache (k ++ hdrSfx) = some h) ∧
      (handleSubscriptionGet
        (runFanout myRand envNone host0 (splitSegs (str "vmess://abc")) ⟨[], 0, []⟩).cache
        (str "/subscription/" ++ k)).status = 200 ∧
      (handleSubscriptionGet
        (runFanout myRand envNone host0 (splitSegs (str "vmess://abc")) ⟨[], 0, []⟩).cache
        (str "/subscription/" ++ k)).body = c :=
  ⟨by decide,
   c10_fanout_invariant myRand envNone host0 (str "vmess://abc") []
     (str "https://example.com/subscription/abcdefghijklmnop") (by decide)⟩

end Psub
